import Mathlib

/-!
Shallow embedding of the resource-aware Ollama benchmark drivers
(`ollama_smart_benchmark.go` and `ollama_benchmark.go`).

Go strings are modelled as `List Char` (`Str`); Go `int`/`int64` as `Int`;
Go `float64` values that the programs compute with (throughput, times,
averages) as `ℚ`, since every arithmetic operation the drivers perform on
them is exact at the inputs the claims quantify over.  HTTP and the daemon
are modelled as explicit outcome values fed to the embedded functions.
-/

/-- Model of Go strings: a sequence of characters. -/
abbrev Str := List Char

/-- Go `strings.Contains s sub`: `sub` occurs as a contiguous substring of `s`. -/
def goContains (s sub : Str) : Bool :=
  sub.isPrefixOf s ||
    match s with
    | [] => false
    | _ :: t => goContains t sub

/-- Go `strings.Split s sep` for a one-character separator `c`:
splits `s` around every occurrence of `c`; the result is never empty. -/
def goSplit (c : Char) : Str → List Str
  | [] => [[]]
  | a :: t =>
    if a = c then [] :: goSplit c t
    else
      match goSplit c t with
      | h :: r => (a :: h) :: r
      | [] => [[a]]

/-- `extractModelSize` (ollama_smart_benchmark.go:408-414): split the model
name on `':'` and return the second field when there is one, else `"unknown"`. -/
def extractModelSize (modelName : Str) : Str :=
  match goSplit ':' modelName with
  | _ :: p1 :: _ => p1
  | _ => ("unknown".toList)

/-- The size-token → GB chain inside `estimateModelRAM`
(ollama_smart_benchmark.go:416-459), applied to the extracted size tag.
Default is 5; tokens are tested by substring containment in source order. -/
def ramForSize (size : Str) : Int :=
  if goContains size ("0.5b".toList) || goContains size ("0.6b".toList) then 1
  else if goContains size ("1b".toList) || goContains size ("1.3b".toList)
      || goContains size ("1.5b".toList) || goContains size ("1.7b".toList) then 2
  else if goContains size ("2b".toList) then 2
  else if goContains size ("3b".toList) then 3
  else if goContains size ("6.7b".toList) || goContains size ("7b".toList) then 5
  else if goContains size ("8b".toList) then 6
  else if goContains size ("9b".toList) then 6
  else if goContains size ("13b".toList) || goContains size ("14b".toList) then 9
  else if goContains size ("27b".toList) then 16
  else if goContains size ("32b".toList) || goContains size ("33b".toList)
      || goContains size ("34b".toList) then 20
  else if goContains size ("70b".toList) then 40
  else if goContains size ("235b".toList) then 130
  else if goContains size ("405b".toList) then 220
  else if goContains size ("671b".toList) then 370
  else if goContains size ("mini".toList) then 3
  else if goContains size ("medium".toList) then 9
  else 5

/-- `estimateModelRAM` (ollama_smart_benchmark.go:416-459): extract the size
tag and look it up in the token table. -/
def estimateModelRAM (modelName : Str) : Int :=
  ramForSize (extractModelSize modelName)

/-- The fixed list of size tokens appearing in `estimateModelRAM`'s chain,
in source order. -/
def sizeTokens : List Str :=
  [("0.5b".toList), ("0.6b".toList), ("1b".toList), ("1.3b".toList),
   ("1.5b".toList), ("1.7b".toList), ("2b".toList), ("3b".toList),
   ("6.7b".toList), ("7b".toList), ("8b".toList), ("9b".toList),
   ("13b".toList), ("14b".toList), ("27b".toList), ("32b".toList),
   ("33b".toList), ("34b".toList), ("70b".toList), ("235b".toList),
   ("405b".toList), ("671b".toList), ("mini".toList), ("medium".toList)]

/-- `getCommonVariants` (ollama_smart_benchmark.go:390-406): the static
family → reference-variant table; unknown families yield `family:latest`. -/
def getCommonVariants (family : Str) : List Str :=
  if family = ("qwen2.5".toList) then
    [("qwen2.5:0.5b".toList), ("qwen2.5:1.5b".toList), ("qwen2.5:3b".toList),
     ("qwen2.5:7b".toList), ("qwen2.5:14b".toList), ("qwen2.5:32b".toList)]
  else if family = ("gemma2".toList) then
    [("gemma2:2b".toList), ("gemma2:9b".toList), ("gemma2:27b".toList)]
  else if family = ("llama3.2".toList) then
    [("llama3.2:1b".toList), ("llama3.2:3b".toList)]
  else if family = ("llama3.1".toList) then
    [("llama3.1:8b".toList), ("llama3.1:70b".toList), ("llama3.1:405b".toList)]
  else if family = ("mistral".toList) then
    [("mistral:7b".toList), ("mistral:latest".toList)]
  else if family = ("codellama".toList) then
    [("codellama:7b".toList), ("codellama:13b".toList), ("codellama:34b".toList),
     ("codellama:70b".toList)]
  else if family = ("phi3".toList) then
    [("phi3:mini".toList), ("phi3:medium".toList)]
  else if family = ("deepseek-coder".toList) then
    [("deepseek-coder:1.3b".toList), ("deepseek-coder:6.7b".toList),
     ("deepseek-coder:33b".toList)]
  else [family ++ (":latest".toList)]

/-- Byte-wise string comparison used by Go's `sort.Strings`
(ascending ordinal order), as a boolean `≤` on `Str`. -/
def strLeb : Str → Str → Bool
  | [], _ => true
  | _ :: _, [] => false
  | a :: s, b :: t => if a < b then true else if b < a then false else strLeb s t

/-- `LLMFamily` (ollama_smart_benchmark.go:25-29). -/
structure LLMFamily where
  name : Str
  enabled : Bool
  testAllVariants : Bool
deriving DecidableEq

/-- `ResourceLimits` (ollama_smart_benchmark.go:31-34). -/
structure ResourceLimits where
  maxRAMUsagePercent : Int
  minFreeRAMGB : Int
deriving DecidableEq

/-- `TestSettings` (ollama_smart_benchmark.go:36-40). -/
structure TestSettings where
  autoPullModels : Bool
  skipIfInsufficientResources : Bool
  parallelTesting : Bool
deriving DecidableEq

/-- `Config` (ollama_smart_benchmark.go:19-23). -/
structure Config where
  llmFamilies : List LLMFamily
  resourceLimits : ResourceLimits
  testSettings : TestSettings
deriving DecidableEq

/-- `SystemInfo` (ollama_smart_benchmark.go:43-47). -/
structure SystemInfo where
  totalRAMGB : Int
  availableRAMGB : Int
  arch : Str
deriving DecidableEq

/-- `GenerateResponse` (both drivers): the decoded body of a successful
`POST /api/generate` call.  Counts and nanosecond durations are `Int`
(Go `int`/`int64`); the timestamp and model echo are irrelevant to the
claims but kept where the code reads them. -/
structure GenerateResponse where
  response : Str
  done : Bool
  totalDuration : Int
  loadDuration : Int
  promptEvalCount : Int
  promptEvalDuration : Int
  evalCount : Int
  evalDuration : Int
deriving DecidableEq

/-- `TestCase` (ollama_smart_benchmark.go:80-84). -/
structure TestCase where
  name : Str
  prompt : Str
  category : Str
deriving DecidableEq

/-- `BenchmarkResult` (ollama_smart_benchmark.go:86-100). -/
structure BenchmarkResult where
  modelName : Str
  modelSize : Str
  testName : Str
  category : Str
  tokensPerSecond : ℚ
  timeToFirstToken : ℚ
  totalTokens : Int
  promptTokens : Int
  totalTimeMs : ℚ
  response : Str
  success : Bool
  error : Str
  ramUsedGB : ℚ
deriving DecidableEq

/-- `ModelSummary` (ollama_smart_benchmark.go:102-110). -/
structure ModelSummary where
  modelName : Str
  modelSize : Str
  avgTokensPerSec : ℚ
  avgTotalTimeMs : ℚ
  testResults : List BenchmarkResult
  canRun : Bool
  skipReason : Str
deriving DecidableEq

/-- The zero-valued `BenchmarkResult` (Go zero value for the struct). -/
def BenchmarkResult.zero : BenchmarkResult :=
  { modelName := [], modelSize := [], testName := [], category := []
    tokensPerSecond := 0, timeToFirstToken := 0, totalTokens := 0
    promptTokens := 0, totalTimeMs := 0, response := [], success := false
    error := [], ramUsedGB := 0 }

/-- The variant-insertion loop of `getOllamaLibraryModels`
(ollama_smart_benchmark.go:366-381): each reference variant is appended
only if it is not already in the accumulated list. -/
def addVariants (ms : List Str) : List Str → List Str
  | [] => ms
  | v :: vs => if v ∈ ms then addVariants ms vs else addVariants (ms ++ [v]) vs

/-- The family loop of `getOllamaLibraryModels`
(ollama_smart_benchmark.go:352-382): for each enabled family, append every
installed name having the family name as a literal prefix (no
de-duplication), then, if `testAllVariants`, insert the reference variants
with the de-duplicating check. -/
def buildModels (installed : List Str) : List LLMFamily → List Str → List Str
  | [], ms => ms
  | f :: fs, ms =>
    if f.enabled then
      buildModels installed fs
        (if f.testAllVariants then
          addVariants (ms ++ installed.filter (fun m => f.name.isPrefixOf m))
            (getCommonVariants f.name)
        else ms ++ installed.filter (fun m => f.name.isPrefixOf m))
    else buildModels installed fs ms

/-- `getOllamaLibraryModels` (ollama_smart_benchmark.go:331-388), given the
decoded `/api/tags` model names `tags`.  The Go code stores the installed
names in a map (collapsing duplicates; iteration order immaterial because
the result is sorted and membership checks are order-independent), runs the
family loop, and finally sorts with `sort.Strings`, modelled as an
insertion sort over byte-wise `≤` — extensionally the sorted permutation,
which is unique here because duplicate strings are indistinguishable. -/
def getOllamaLibraryModels (config : Config) (tags : List Str) : List Str :=
  List.insertionSort (fun a b => strLeb a b = true)
    (buildModels tags.dedup config.llmFamilies [])

/-- `filterModelsByResources`'s admission loop
(ollama_smart_benchmark.go:466-475), appending each admitted model. -/
def filterLoop (sysInfo : SystemInfo) (config : Config) :
    List Str → List Str → List Str
  | acc, [] => acc
  | acc, m :: ms =>
    if estimateModelRAM m + config.resourceLimits.minFreeRAMGB
        ≤ sysInfo.availableRAMGB then
      filterLoop sysInfo config (acc ++ [m]) ms
    else filterLoop sysInfo config acc ms

/-- `filterModelsByResources` (ollama_smart_benchmark.go:461-478). -/
def filterModelsByResources (models : List Str) (sysInfo : SystemInfo)
    (config : Config) : List Str :=
  if !config.testSettings.skipIfInsufficientResources then models
  else filterLoop sysInfo config [] models

/-- One decoded item of the `/api/pull` response stream: either a JSON
object whose optional `status` field is a string (`ok`), or a non-EOF
decode/transport failure while reading the stream (`fail`).  The end of the
list is `io.EOF`. -/
inductive PullItem where
  | ok (status : Option Str)
  | fail
deriving DecidableEq

/-- The decode loop of the smart driver's `pullModel`
(ollama_smart_benchmark.go:512-527): a status containing `"success"`
returns true immediately; a decode error returns false; EOF returns true. -/
def pullLoop : List PullItem → Bool
  | [] => true
  | PullItem.fail :: _ => false
  | PullItem.ok none :: rest => pullLoop rest
  | PullItem.ok (some s) :: rest =>
    if goContains s ("success".toList) then true else pullLoop rest

/-- `pullModel` (ollama_smart_benchmark.go:500-528): `none` models an
`http.Post` transport error (immediate false); otherwise the stream of
decoded status objects is consumed by `pullLoop`. -/
def pullModel (stream : Option (List PullItem)) : Bool :=
  match stream with
  | none => false
  | some items => pullLoop items

/-- Everything environmental that decides one `runBenchmark` call:
which failure (if any) occurs, the wall-clock milliseconds measured, and
the decoded response on success. -/
inductive CallOutcome where
  | marshalError (msg : Str)
  | transportError (msg : Str)
  | readError (msg : Str)
  | decodeError (msg : Str)
  | ok (elapsedMs : ℚ) (resp : GenerateResponse)
deriving DecidableEq

/-- `runBenchmark` (ollama_smart_benchmark.go:530-590): builds the base
result, returns early with an error message on any failure, and otherwise
fills in the metrics, guarding both divisions exactly as the source does. -/
def runBenchmark (model : Str) (test : TestCase) (outcome : CallOutcome) :
    BenchmarkResult :=
  let result := { BenchmarkResult.zero with
    modelName := model
    modelSize := extractModelSize model
    testName := test.name
    category := test.category }
  match outcome with
  | CallOutcome.marshalError msg =>
    { result with error := ("Failed to marshal request: ".toList) ++ msg }
  | CallOutcome.transportError msg =>
    { result with error := ("Failed to send request: ".toList) ++ msg }
  | CallOutcome.readError msg =>
    { result with error := ("Failed to read response: ".toList) ++ msg }
  | CallOutcome.decodeError msg =>
    { result with error := ("Failed to parse response: ".toList) ++ msg }
  | CallOutcome.ok elapsedMs genResp =>
    { result with
      success := true
      response := genResp.response
      totalTokens := genResp.evalCount
      promptTokens := genResp.promptEvalCount
      totalTimeMs := elapsedMs
      ramUsedGB := (estimateModelRAM model : ℚ)
      tokensPerSecond :=
        if genResp.evalDuration > 0 then
          (genResp.evalCount : ℚ) / (genResp.evalDuration : ℚ) * 1000000000
        else 0
      timeToFirstToken :=
        if genResp.loadDuration > 0 ∧ genResp.promptEvalDuration > 0 then
          ((genResp.loadDuration : ℚ) + (genResp.promptEvalDuration : ℚ)) / 1000000
        else 0 }

/-- The fixed test battery (ollama_smart_benchmark.go:180-206); the basic
driver declares the identical five cases. -/
def testCases : List TestCase :=
  [{ name := ("Simple Reasoning".toList), category := ("reasoning".toList),
     prompt := ("Explain the concept of recursion in programming in one paragraph.".toList) },
   { name := ("Code Generation".toList), category := ("coding".toList),
     prompt := ("Write a Python function to calculate the factorial of a number using recursion.".toList) },
   { name := ("Mathematical Problem".toList), category := ("math".toList),
     prompt := ("If a train travels at 60 mph for 2.5 hours, how far does it travel? Show your work.".toList) },
   { name := ("Creative Writing".toList), category := ("creative".toList),
     prompt := ("Write a short haiku about artificial intelligence.".toList) },
   { name := ("Question Answering".toList), category := ("qa".toList),
     prompt := ("What is the capital of France and what is it famous for?".toList) }]

/-- The per-model test loop of `main` (ollama_smart_benchmark.go:243-257):
one `runBenchmark` call per battery entry, in order, every result
appended unconditionally. -/
def runModelTests (model : Str) (calls : TestCase → CallOutcome) :
    List BenchmarkResult :=
  testCases.map (fun t => runBenchmark model t (calls t))

/-- The accumulation in `main`'s test loop (ollama_smart_benchmark.go:239-257):
`(totalTPS, totalTime, successCount)` over the results in order. -/
def accumulateTotals (results : List BenchmarkResult) : ℚ × ℚ × Nat :=
  results.foldl
    (fun acc r =>
      if r.success then (acc.1 + r.tokensPerSecond, acc.2.1 + r.totalTimeMs, acc.2.2 + 1)
      else acc)
    (0, 0, 0)

/-- The summary finalization in `main` (ollama_smart_benchmark.go:259-273):
averages divide the accumulated totals by `successCount` when it is
positive and stay 0 otherwise; `canRun` records `successCount > 0`. -/
def mkSummary (model : Str) (results : List BenchmarkResult) : ModelSummary :=
  let acc := accumulateTotals results
  { modelName := model
    modelSize := extractModelSize model
    avgTokensPerSec := if 0 < acc.2.2 then acc.1 / (acc.2.2 : ℚ) else 0
    avgTotalTimeMs := if 0 < acc.2.2 then acc.2.1 / (acc.2.2 : ℚ) else 0
    testResults := results
    canRun := decide (0 < acc.2.2)
    skipReason := [] }

/-- Everything environmental that decides one model's run: the
`checkModelInstalled` answer, the `/api/pull` stream if a pull happens, and
the generation-call outcomes. -/
structure ModelEnv where
  installed : Bool
  pullStream : Option (List PullItem)
  calls : TestCase → CallOutcome

/-- One iteration of `main`'s model loop (ollama_smart_benchmark.go:211-274):
a model that is not installed is either pulled (testing proceeds only on
success) or skipped, and every branch yields exactly one `ModelSummary`. -/
def processModel (config : Config) (model : Str) (env : ModelEnv) :
    ModelSummary :=
  if !env.installed && config.testSettings.autoPullModels
      && !pullModel env.pullStream then
    { modelName := model, modelSize := [], avgTokensPerSec := 0
      avgTotalTimeMs := 0, testResults := [], canRun := false
      skipReason := ("Failed to pull model".toList) }
  else if !env.installed && !config.testSettings.autoPullModels then
    { modelName := model, modelSize := [], avgTokensPerSec := 0
      avgTotalTimeMs := 0, testResults := [], canRun := false
      skipReason := ("Model not installed".toList) }
  else mkSummary model (runModelTests model env.calls)

/-- `main`'s model loop over the testable models
(ollama_smart_benchmark.go:209-274): strictly sequential, one summary per
model, a failed model never aborts the run. -/
def runAllModels (config : Config) (models : List Str) (env : Str → ModelEnv) :
    List ModelSummary :=
  models.map (fun m => processModel config m (env m))

/-- `displayResults`' filter of the summaries (ollama_smart_benchmark.go:599-604). -/
def successfulOf (summaries : List ModelSummary) : List ModelSummary :=
  summaries.filter (fun s => s.canRun)

/-- The overall-ranking sort of `displayResults`
(ollama_smart_benchmark.go:606-609): `sort.Slice(successful, less)` with
`less i j ↔ avg_i > avg_j`.  Go documents `sort.Slice` as sorting the slice
by `less` with **no stability guarantee**, so the call is embedded by its
contract: the admissible outputs are exactly the permutations of the
filtered summaries that are pairwise ordered by the comparator
(equivalently, nonincreasing in average tokens/sec). -/
def rankingOk (summaries out : List ModelSummary) : Prop :=
  out.Perm (successfulOf summaries) ∧
    out.Sorted (fun a b => a.avgTokensPerSec ≥ b.avgTokensPerSec)

/-- Stability property claimed by the spec: equal-average entries of the
input keep their relative order in the output. -/
def preservesTieOrder (inp out : List ModelSummary) : Prop :=
  ∀ (i j : Fin inp.length), (i : ℕ) < (j : ℕ) →
    (inp.get i).avgTokensPerSec = (inp.get j).avgTokensPerSec →
    ∃ (k l : Fin out.length), (k : ℕ) < (l : ℕ) ∧
      out.get k = inp.get i ∧ out.get l = inp.get j

/-- Membership in `displayResults`' category set
(ollama_smart_benchmark.go:620-627): built from **successful** results of
the `canRun` summaries only. -/
def categoryShown (successful : List ModelSummary) (category : Str) : Bool :=
  successful.any (fun s =>
    s.testResults.any (fun r => r.success && r.category == category))

/-- The best-in-category fold of `displayResults`
(ollama_smart_benchmark.go:646-657): running `(bestModel, bestSpeed)`
starting at `("", 0.0)`, updated only when a successful result of the
category is **strictly** faster than the running best; the entry is printed
only when `bestModel` ended up nonempty (go:659-661). -/
def bestForCategory (successful : List ModelSummary) (category : Str) :
    Str × ℚ :=
  successful.foldl
    (fun acc s =>
      s.testResults.foldl
        (fun acc2 r =>
          if r.category = category ∧ r.success = true ∧ r.tokensPerSecond > acc2.2 then
            (s.modelName, r.tokensPerSecond)
          else acc2)
        acc)
    ([], 0)

namespace Basic

/-- `BenchmarkResult` of the basic driver (ollama_benchmark.go:41-53). -/
structure BenchmarkResult where
  modelName : Str
  testName : Str
  category : Str
  tokensPerSecond : ℚ
  timeToFirstToken : ℚ
  totalTokens : Int
  promptTokens : Int
  totalTimeMs : ℚ
  response : Str
  success : Bool
  error : Str
deriving DecidableEq

/-- `ModelComparison` (ollama_benchmark.go:56-61). -/
structure ModelComparison where
  modelName : Str
  avgTokensPerSec : ℚ
  avgTotalTimeMs : ℚ
  testResults : List BenchmarkResult
deriving DecidableEq

/-- The decode loop of the basic driver's `pullModel`
(ollama_benchmark.go:212-222): **any** decode error — including `io.EOF` —
breaks the loop, which then returns false; only a status value exactly
equal to the string `"success"` returns true. -/
def pullLoop : List PullItem → Bool
  | [] => false
  | PullItem.fail :: _ => false
  | PullItem.ok st :: rest =>
    if st = some ("success".toList) then true else pullLoop rest

/-- `pullModel` of the basic driver (ollama_benchmark.go:200-223). -/
def pullModel (stream : Option (List PullItem)) : Bool :=
  match stream with
  | none => false
  | some items => pullLoop items

/-- The zero-valued basic `BenchmarkResult`. -/
def BenchmarkResult.zero : BenchmarkResult :=
  { modelName := [], testName := [], category := [], tokensPerSecond := 0
    timeToFirstToken := 0, totalTokens := 0, promptTokens := 0
    totalTimeMs := 0, response := [], success := false, error := [] }

/-- `runBenchmark` of the basic driver (ollama_benchmark.go:225-285):
identical error handling and metric extraction, minus the RAM estimate. -/
def runBenchmark (model : Str) (test : TestCase) (outcome : CallOutcome) :
    BenchmarkResult :=
  let result := { BenchmarkResult.zero with
    modelName := model
    testName := test.name
    category := test.category }
  match outcome with
  | CallOutcome.marshalError msg =>
    { result with error := ("Failed to marshal request: ".toList) ++ msg }
  | CallOutcome.transportError msg =>
    { result with error := ("Failed to send request: ".toList) ++ msg }
  | CallOutcome.readError msg =>
    { result with error := ("Failed to read response: ".toList) ++ msg }
  | CallOutcome.decodeError msg =>
    { result with error := ("Failed to parse response: ".toList) ++ msg }
  | CallOutcome.ok elapsedMs genResp =>
    { result with
      success := true
      response := genResp.response
      totalTokens := genResp.evalCount
      promptTokens := genResp.promptEvalCount
      totalTimeMs := elapsedMs
      tokensPerSecond :=
        if genResp.evalDuration > 0 then
          (genResp.evalCount : ℚ) / (genResp.evalDuration : ℚ) * 1000000000
        else 0
      timeToFirstToken :=
        if genResp.loadDuration > 0 ∧ genResp.promptEvalDuration > 0 then
          ((genResp.loadDuration : ℚ) + (genResp.promptEvalDuration : ℚ)) / 1000000
        else 0 }

/-- Category-set membership in `displayComparison`
(ollama_benchmark.go:302-307): built from **all** results, success or not. -/
def categoryShown (comparisons : List ModelComparison) (category : Str) : Bool :=
  comparisons.any (fun c => c.testResults.any (fun r => r.category == category))

/-- The best-in-category fold of `displayComparison`
(ollama_benchmark.go:326-341), same shape as the smart driver's. -/
def bestForCategory (comparisons : List ModelComparison) (category : Str) :
    Str × ℚ :=
  comparisons.foldl
    (fun acc c =>
      c.testResults.foldl
        (fun acc2 r =>
          if r.category = category ∧ r.success = true ∧ r.tokensPerSecond > acc2.2 then
            (c.modelName, r.tokensPerSecond)
          else acc2)
        acc)
    ([], 0)

end Basic

/-- A pull-stream item whose status string contains the substring
`"success"` (the smart driver's success test, go:521-525). -/
def isSuccessItem : PullItem → Bool
  | PullItem.ok (some s) => goContains s ("success".toList)
  | _ => false

/-- The generation-call outcomes `runBenchmark` turns into a failed result:
everything except a decoded response. -/
def isFailureOutcome : CallOutcome → Bool
  | CallOutcome.ok _ _ => false
  | _ => true

/-- The suffix of `s` after the first occurrence of `c` (empty if `c` does
not occur); used to state what `extractModelSize` does and what the spec
says it does. -/
def afterFirst (c : Char) : Str → Str
  | [] => []
  | a :: t => if a = c then t else afterFirst c t

/-- Size-tag extraction as the spec's words describe it: the **entire**
remainder after the first `':'` (including any further `':'`), or
`"unknown"` when there is no `':'`.  Stated only to be compared with the
source's `extractModelSize`. -/
def extractModelSizeClaimed (m : Str) : Str :=
  if ':' ∈ m then afterFirst ':' m else ("unknown".toList)

/-- Success condition for `pullModel` as the claim's words state it
(non-operationally): some decoded status contains `"success"`, or the
stream ends without a transport/decode error; any error means failure.
Stated only to be compared with the two embedded `pullModel`s. -/
def pullClaimC3 (stream : Option (List PullItem)) : Prop :=
  match stream with
  | none => False
  | some items =>
    (∃ x ∈ items, isSuccessItem x = true) ∨ ∀ x ∈ items, x ≠ PullItem.fail

/-- How many enabled family entries of `fs` have their name as a literal
prefix of the installed name `m` — the quantity that controls duplication
in `getOllamaLibraryModels`' family loop. -/
def matchingFamilies (fs : List LLMFamily) (m : Str) : Nat :=
  (fs.filter (fun f => f.enabled && f.name.isPrefixOf m)).length

/-- Fixture: a response reporting 100 tokens in 2s of eval time. -/
def respFast : GenerateResponse :=
  { response := [], done := true, totalDuration := 0, loadDuration := 3000000
    promptEvalCount := 10, promptEvalDuration := 2000000, evalCount := 100
    evalDuration := 2000000000 }

/-- Fixture: a response with every count and duration zero. -/
def respZero : GenerateResponse :=
  { response := [], done := true, totalDuration := 0, loadDuration := 0
    promptEvalCount := 0, promptEvalDuration := 0, evalCount := 0
    evalDuration := 0 }

/-- Fixture: an empty test case. -/
def testW : TestCase := { name := [], prompt := [], category := [] }

/-- Fixture: a runnable summary with average throughput 5. -/
def summA : ModelSummary :=
  { modelName := ("a:1b".toList), modelSize := ("1b".toList)
    avgTokensPerSec := 5, avgTotalTimeMs := 1, testResults := []
    canRun := true, skipReason := [] }

/-- Fixture: a second runnable summary with the same average throughput. -/
def summB : ModelSummary :=
  { modelName := ("b:1b".toList), modelSize := ("1b".toList)
    avgTokensPerSec := 5, avgTotalTimeMs := 2, testResults := []
    canRun := true, skipReason := [] }

/-- Fixture: two enabled families whose names are both prefixes of the
installed model `llama3.2:1b`. -/
def configDup : Config :=
  { llmFamilies :=
      [{ name := ("llama".toList), enabled := true, testAllVariants := false },
       { name := ("llama3.2".toList), enabled := true, testAllVariants := false }]
    resourceLimits := { maxRAMUsagePercent := 70, minFreeRAMGB := 4 }
    testSettings := { autoPullModels := false
                      skipIfInsufficientResources := false
                      parallelTesting := false } }

/-- Fixture: resource skipping enabled with a 4 GB safety margin. -/
def configSkip : Config :=
  { llmFamilies := []
    resourceLimits := { maxRAMUsagePercent := 70, minFreeRAMGB := 4 }
    testSettings := { autoPullModels := false
                      skipIfInsufficientResources := true
                      parallelTesting := false } }

/-- Fixture: a machine exposing 16 GB to LLMs. -/
def sysInfo16 : SystemInfo :=
  { totalRAMGB := 24, availableRAMGB := 16, arch := ("arm64".toList) }

/-- Fixture: installed model whose every generation call succeeds with the
all-zero response. -/
def envAllZero : ModelEnv :=
  { installed := true, pullStream := none
    calls := fun _ => CallOutcome.ok 0 respZero }

/-- Fixture: installed model whose coding test fails to decode and whose
other tests succeed. -/
def envFailSecond : ModelEnv :=
  { installed := true, pullStream := none
    calls := fun t =>
      if t.category = ("coding".toList) then
        CallOutcome.decodeError ("invalid character".toList)
      else CallOutcome.ok 1 respFast }

/-- Fixture: a summary with a single successful zero-throughput math result. -/
def summZeroMath : ModelSummary :=
  { modelName := ("z:1b".toList), modelSize := ("1b".toList)
    avgTokensPerSec := 0, avgTotalTimeMs := 0
    testResults :=
      [{ BenchmarkResult.zero with category := ("math".toList), success := true }]
    canRun := true, skipReason := [] }

/-- Fixture: a basic-driver comparison with a single successful
zero-throughput math result. -/
def compZeroMath : Basic.ModelComparison :=
  { modelName := ("z:1b".toList), avgTokensPerSec := 0, avgTotalTimeMs := 0
    testResults :=
      [{ Basic.BenchmarkResult.zero with
          category := ("math".toList), success := true }] }

/-- Fixture: one enabled family with the reference variants requested. -/
def configFam : Config :=
  { llmFamilies :=
      [{ name := ("llama3.2".toList), enabled := true, testAllVariants := true }]
    resourceLimits := { maxRAMUsagePercent := 70, minFreeRAMGB := 4 }
    testSettings := { autoPullModels := false
                      skipIfInsufficientResources := false
                      parallelTesting := false } }

/-- Fixture: successful results at 10 and 20 tokens/sec plus one failure. -/
def resultsW : List BenchmarkResult :=
  [{ BenchmarkResult.zero with success := true, tokensPerSecond := 10, totalTimeMs := 100 },
   { BenchmarkResult.zero with success := true, tokensPerSecond := 20, totalTimeMs := 200 },
   BenchmarkResult.zero]

example : extractModelSize ("qwen2.5:7b".toList) = ("7b".toList) := by decide
example : extractModelSize ("x".toList) = ("unknown".toList) := by decide
example : extractModelSize ("x:7b:q4".toList) = ("7b".toList) := by decide
example : ramForSize ("70b".toList) = 40 := by decide
example : goContains ("70b".toList) ("7b".toList) = false := by decide
example : estimateModelRAM ("m:1b:70b".toList) = 2 := by decide
example : estimateModelRAM ("qwen2.5:14b".toList) = 9 := by decide
example : strLeb ("abc".toList) ("abd".toList) = true := by decide

/-! ### Helper lemmas -/

theorem filterLoop_eq (sysInfo : SystemInfo) (config : Config) :
    ∀ (models acc : List Str),
      filterLoop sysInfo config acc models =
        acc ++ models.filter (fun m =>
          decide (estimateModelRAM m + config.resourceLimits.minFreeRAMGB ≤
            sysInfo.availableRAMGB))
  | [], acc => by simp [filterLoop]
  | m :: ms, acc => by
    by_cases h : estimateModelRAM m + config.resourceLimits.minFreeRAMGB ≤
        sysInfo.availableRAMGB
    · simp [filterLoop, h, filterLoop_eq sysInfo config ms (acc ++ [m])]
    · simp [filterLoop, h, filterLoop_eq sysInfo config ms acc]

/-! ### C4 — admission filter -/

/-- **C4.** With `skip_if_insufficient_resources` disabled,
`filterModelsByResources` returns the catalog unchanged; with it enabled, a
variant is admitted iff `estimateModelRAM(variant) + min_free_ram_gb ≤
available_gb` (so with `available_gb = 16` and `min_free_gb = 4`, an
estimate of 9 GB is admitted because `9 + 4 ≤ 16` and one of 13 GB is
rejected because `13 + 4 > 16`). -/
theorem filterModelsByResources_admission (models : List Str)
    (sysInfo : SystemInfo) (config : Config) :
    (config.testSettings.skipIfInsufficientResources = false →
      filterModelsByResources models sysInfo config = models) ∧
    (config.testSettings.skipIfInsufficientResources = true →
      ∀ m : Str,
        m ∈ filterModelsByResources models sysInfo config ↔
          m ∈ models ∧
            estimateModelRAM m + config.resourceLimits.minFreeRAMGB ≤
              sysInfo.availableRAMGB) := by
  constructor
  · intro h
    simp [filterModelsByResources, h]
  · intro h m
    simp [filterModelsByResources, h, filterLoop_eq, List.mem_filter]

/-- Witness for C4: on a 16 GB machine with a 4 GB margin, the 9 GB
estimate `qwen2.5:14b` is admitted. -/
theorem filterModelsByResources_admission_witness :
    ("qwen2.5:14b".toList) ∈
        filterModelsByResources
          [("qwen2.5:14b".toList), ("x:27b".toList)] sysInfo16 configSkip ↔
      ("qwen2.5:14b".toList) ∈ [("qwen2.5:14b".toList), ("x:27b".toList)] ∧
        estimateModelRAM ("qwen2.5:14b".toList) +
            configSkip.resourceLimits.minFreeRAMGB ≤
          sysInfo16.availableRAMGB :=
  (filterModelsByResources_admission
    [("qwen2.5:14b".toList), ("x:27b".toList)] sysInfo16 configSkip).2 rfl _

/-! ### C8 — metric extraction guards -/

/-- **C8.** On a decoded generation response, `tokens_per_second` is
`eval_count / eval_duration * 1e9` exactly when the reported
`eval_duration` is positive and 0 otherwise (the division is never reached
with a zero duration), and `time_to_first_token_ms` is
`(load_duration + prompt_eval_duration) / 1e6` exactly when both durations
are positive and stays 0 otherwise — in both drivers' `runBenchmark`. -/
theorem runBenchmark_metric_extraction (model : Str) (test : TestCase)
    (elapsedMs : ℚ) (resp : GenerateResponse) :
    ((resp.evalDuration > 0 →
        (runBenchmark model test (CallOutcome.ok elapsedMs resp)).tokensPerSecond =
          (resp.evalCount : ℚ) / (resp.evalDuration : ℚ) * 1000000000) ∧
      (¬ resp.evalDuration > 0 →
        (runBenchmark model test (CallOutcome.ok elapsedMs resp)).tokensPerSecond = 0) ∧
      (resp.loadDuration > 0 ∧ resp.promptEvalDuration > 0 →
        (runBenchmark model test (CallOutcome.ok elapsedMs resp)).timeToFirstToken =
          ((resp.loadDuration : ℚ) + (resp.promptEvalDuration : ℚ)) / 1000000) ∧
      (¬ (resp.loadDuration > 0 ∧ resp.promptEvalDuration > 0) →
        (runBenchmark model test (CallOutcome.ok elapsedMs resp)).timeToFirstToken = 0)) ∧
    ((resp.evalDuration > 0 →
        (Basic.runBenchmark model test (CallOutcome.ok elapsedMs resp)).tokensPerSecond =
          (resp.evalCount : ℚ) / (resp.evalDuration : ℚ) * 1000000000) ∧
      (¬ resp.evalDuration > 0 →
        (Basic.runBenchmark model test (CallOutcome.ok elapsedMs resp)).tokensPerSecond = 0) ∧
      (resp.loadDuration > 0 ∧ resp.promptEvalDuration > 0 →
        (Basic.runBenchmark model test (CallOutcome.ok elapsedMs resp)).timeToFirstToken =
          ((resp.loadDuration : ℚ) + (resp.promptEvalDuration : ℚ)) / 1000000) ∧
      (¬ (resp.loadDuration > 0 ∧ resp.promptEvalDuration > 0) →
        (Basic.runBenchmark model test (CallOutcome.ok elapsedMs resp)).timeToFirstToken = 0)) := by
  refine ⟨⟨?_, ?_, ?_, ?_⟩, ?_, ?_, ?_, ?_⟩ <;> intro h <;>
    simp [runBenchmark, Basic.runBenchmark, h]

/-- Witness for C8: the fixture response (100 tokens over 2s of eval, 3ms
load, 2ms prompt eval) yields the claimed quotients. -/
theorem runBenchmark_metric_extraction_witness :
    (runBenchmark ("m:7b".toList) testW (CallOutcome.ok 5 respFast)).tokensPerSecond =
        (100 : ℚ) / 2000000000 * 1000000000 ∧
      (runBenchmark ("m:7b".toList) testW (CallOutcome.ok 5 respFast)).timeToFirstToken =
        ((3000000 : ℚ) + 2000000) / 1000000 := by
  have h := runBenchmark_metric_extraction ("m:7b".toList) testW 5 respFast
  refine ⟨?_, ?_⟩
  · have := h.1.1 (by decide)
    simpa [respFast] using this
  · have := h.1.2.2.1 (by decide)
    simpa [respFast] using this

/-! ### C10 — best-in-category with all-zero throughput -/

theorem bestInner_zero (category name : Str) :
    ∀ results : List BenchmarkResult,
      (∀ r ∈ results, r.success = true → r.category = category →
        r.tokensPerSecond = 0) →
      results.foldl
        (fun acc2 r =>
          if r.category = category ∧ r.success = true ∧ r.tokensPerSecond > acc2.2 then
            (name, r.tokensPerSecond)
          else acc2)
        (([] : Str), (0 : ℚ)) = ([], 0)
  | [], _ => rfl
  | r :: rs, h => by
    have hg : ¬ (r.category = category ∧ r.success = true ∧
        r.tokensPerSecond > ((([] : Str), (0 : ℚ)).2)) := by
      rintro ⟨h1, h2, h3⟩
      rw [h r (List.mem_cons_self r rs) h2 h1] at h3
      exact lt_irrefl 0 h3
    simp only [List.foldl_cons, if_neg hg]
    exact bestInner_zero category name rs
      (fun r' hr' => h r' (List.mem_cons_of_mem r hr'))

theorem bestForCategory_eq_default :
    ∀ (successful : List ModelSummary) (category : Str),
      (∀ s ∈ successful, ∀ r ∈ s.testResults, r.success = true →
        r.category = category → r.tokensPerSecond = 0) →
      bestForCategory successful category = ([], 0)
  | [], _, _ => rfl
  | s :: ss, category, h => by
    have h1 := h s (List.mem_cons_self s ss)
    unfold bestForCategory
    simp only [List.foldl_cons]
    rw [bestInner_zero category s.modelName s.testResults h1]
    exact bestForCategory_eq_default ss category
      (fun s' hs' => h s' (List.mem_cons_of_mem s hs'))

theorem bestInnerBasic_zero (category name : Str) :
    ∀ results : List Basic.BenchmarkResult,
      (∀ r ∈ results, r.success = true → r.category = category →
        r.tokensPerSecond = 0) →
      results.foldl
        (fun acc2 r =>
          if r.category = category ∧ r.success = true ∧ r.tokensPerSecond > acc2.2 then
            (name, r.tokensPerSecond)
          else acc2)
        (([] : Str), (0 : ℚ)) = ([], 0)
  | [], _ => rfl
  | r :: rs, h => by
    have hg : ¬ (r.category = category ∧ r.success = true ∧
        r.tokensPerSecond > ((([] : Str), (0 : ℚ)).2)) := by
      rintro ⟨h1, h2, h3⟩
      rw [h r (List.mem_cons_self r rs) h2 h1] at h3
      exact lt_irrefl 0 h3
    simp only [List.foldl_cons, if_neg hg]
    exact bestInnerBasic_zero category name rs
      (fun r' hr' => h r' (List.mem_cons_of_mem r hr'))

theorem bestForCategoryBasic_eq_default :
    ∀ (comparisons : List Basic.ModelComparison) (category : Str),
      (∀ c ∈ comparisons, ∀ r ∈ c.testResults, r.success = true →
        r.category = category → r.tokensPerSecond = 0) →
      Basic.bestForCategory comparisons category = ([], 0)
  | [], _, _ => rfl
  | c :: cs, category, h => by
    have h1 := h c (List.mem_cons_self c cs)
    unfold Basic.bestForCategory
    simp only [List.foldl_cons]
    rw [bestInnerBasic_zero category c.modelName c.testResults h1]
    exact bestForCategoryBasic_eq_default cs category
      (fun c' hc' => h c' (List.mem_cons_of_mem c hc'))

/-- **C10.** In both drivers' best-model-per-category selection, a result
is recorded only when its tokens/sec strictly exceeds the running best,
which starts at 0; hence in a category whose successful results all report
exactly 0 tokens/sec, the best model stays the empty string (so no
best-in-category line is printed), while the category still belongs to the
per-category breakdown's category set. -/
theorem bestInCategory_zero_speed :
    (∀ (successful : List ModelSummary) (category : Str),
      (∃ s ∈ successful, ∃ r ∈ s.testResults,
        r.success = true ∧ r.category = category) →
      (∀ s ∈ successful, ∀ r ∈ s.testResults, r.success = true →
        r.category = category → r.tokensPerSecond = 0) →
      (bestForCategory successful category).1 = [] ∧
        categoryShown successful category = true) ∧
    (∀ (comparisons : List Basic.ModelComparison) (category : Str),
      (∃ c ∈ comparisons, ∃ r ∈ c.testResults,
        r.success = true ∧ r.category = category) →
      (∀ c ∈ comparisons, ∀ r ∈ c.testResults, r.success = true →
        r.category = category → r.tokensPerSecond = 0) →
      (Basic.bestForCategory comparisons category).1 = [] ∧
        Basic.categoryShown comparisons category = true) := by
  constructor
  · intro successful category hex hall
    refine ⟨by rw [bestForCategory_eq_default successful category hall], ?_⟩
    obtain ⟨s, hs, r, hr, hsucc, hcat⟩ := hex
    simp only [categoryShown, List.any_eq_true, Bool.and_eq_true, beq_iff_eq]
    exact ⟨s, hs, r, hr, hsucc, hcat⟩
  · intro comparisons category hex hall
    refine ⟨by rw [bestForCategoryBasic_eq_default comparisons category hall], ?_⟩
    obtain ⟨c, hc, r, hr, _, hcat⟩ := hex
    simp only [Basic.categoryShown, List.any_eq_true, beq_iff_eq]
    exact ⟨c, hc, r, hr, hcat⟩

/-- Witness for C10: one summary (and one comparison) holding a single
successful math result at 0 tokens/sec. -/
theorem bestInCategory_zero_speed_witness :
    ((bestForCategory [summZeroMath] ("math".toList)).1 = [] ∧
      categoryShown [summZeroMath] ("math".toList) = true) ∧
    ((Basic.bestForCategory [compZeroMath] ("math".toList)).1 = [] ∧
      Basic.categoryShown [compZeroMath] ("math".toList) = true) :=
  ⟨bestInCategory_zero_speed.1 [summZeroMath] ("math".toList)
      (by decide) (by decide),
   bestInCategory_zero_speed.2 [compZeroMath] ("math".toList)
      (by decide) (by decide)⟩

/-! ### C3 — pull success conditions -/

theorem pullLoop_eq_false_iff :
    ∀ items : List PullItem,
      pullLoop items = false ↔
        ∃ pre post, items = pre ++ PullItem.fail :: post ∧
          ∀ x ∈ pre, isSuccessItem x = false
  | [] => by
    simp only [pullLoop]
    constructor
    · intro h; cases h
    · rintro ⟨pre, post, h, -⟩
      cases pre <;> simp_all
  | PullItem.fail :: rest => by
    simp only [pullLoop]
    exact iff_of_true trivial ⟨[], rest, rfl, by intro x hx; cases hx⟩
  | PullItem.ok none :: rest => by
    have ih := pullLoop_eq_false_iff rest
    simp only [pullLoop]
    constructor
    · intro h
      obtain ⟨pre, post, heq, hpre⟩ := ih.mp h
      refine ⟨PullItem.ok none :: pre, post, by rw [heq]; rfl, ?_⟩
      intro x hx
      rcases List.mem_cons.mp hx with hx | hx
      · subst hx; rfl
      · exact hpre x hx
    · rintro ⟨pre, post, heq, hpre⟩
      cases pre with
      | nil => cases heq
      | cons a pre =>
        have ha : a = PullItem.ok none := (List.cons_eq_cons.mp heq).1.symm
        have hrest : rest = pre ++ PullItem.fail :: post :=
          (List.cons_eq_cons.mp heq).2
        exact ih.mpr ⟨pre, post, hrest,
          fun x hx => hpre x (List.mem_cons_of_mem a hx)⟩
  | PullItem.ok (some s) :: rest => by
    by_cases hs : goContains s ("success".toList) = true
    · simp only [pullLoop, if_pos hs]
      constructor
      · intro h; cases h
      · rintro ⟨pre, post, heq, hpre⟩
        cases pre with
        | nil => cases heq
        | cons a pre =>
          have ha : a = PullItem.ok (some s) := (List.cons_eq_cons.mp heq).1.symm
          have := hpre a (List.mem_cons_self a pre)
          rw [ha] at this
          simp only [isSuccessItem] at this
          rw [this] at hs
          cases hs
    · have ih := pullLoop_eq_false_iff rest
      simp only [pullLoop, if_neg hs]
      constructor
      · intro h
        obtain ⟨pre, post, heq, hpre⟩ := ih.mp h
        refine ⟨PullItem.ok (some s) :: pre, post, by rw [heq]; rfl, ?_⟩
        intro x hx
        rcases List.mem_cons.mp hx with hx | hx
        · subst hx
          simp only [isSuccessItem]
          exact Bool.not_eq_true _ ▸ (by simpa using hs)
        · exact hpre x hx
      · rintro ⟨pre, post, heq, hpre⟩
        cases pre with
        | nil => cases heq
        | cons a pre =>
          have hrest : rest = pre ++ PullItem.fail :: post :=
            (List.cons_eq_cons.mp heq).2
          exact ih.mpr ⟨pre, post, hrest,
            fun x hx => hpre x (List.mem_cons_of_mem a hx)⟩

theorem pullLoopBasic_eq_true_iff :
    ∀ items : List PullItem,
      Basic.pullLoop items = true ↔
        ∃ pre post,
          items = pre ++ PullItem.ok (some ("success".toList)) :: post ∧
            ∀ x ∈ pre, x ≠ PullItem.fail
  | [] => by
    simp only [Basic.pullLoop]
    constructor
    · intro h; cases h
    · rintro ⟨pre, post, h, -⟩
      cases pre <;> simp_all
  | PullItem.fail :: rest => by
    simp only [Basic.pullLoop]
    constructor
    · intro h; cases h
    · rintro ⟨pre, post, heq, hpre⟩
      cases pre with
      | nil => cases heq
      | cons a pre =>
        have ha : a = PullItem.fail := (List.cons_eq_cons.mp heq).1.symm
        exact absurd ha (hpre a (List.mem_cons_self a pre))
  | PullItem.ok st :: rest => by
    by_cases hst : st = some ("success".toList)
    · constructor
      · intro _
        exact ⟨[], rest, by rw [hst]; rfl, by intro x hx; cases hx⟩
      · intro _
        simp [Basic.pullLoop, hst]
    · have ih := pullLoopBasic_eq_true_iff rest
      simp only [Basic.pullLoop, if_neg hst]
      constructor
      · intro h
        obtain ⟨pre, post, heq, hpre⟩ := ih.mp h
        refine ⟨PullItem.ok st :: pre, post, by rw [heq]; rfl, ?_⟩
        intro x hx
        rcases List.mem_cons.mp hx with hx | hx
        · subst hx; intro hc; cases hc
        · exact hpre x hx
      · rintro ⟨pre, post, heq, hpre⟩
        cases pre with
        | nil =>
          have := (List.cons_eq_cons.mp heq).1
          exact absurd (by injection this) hst
        | cons a pre =>
          have hrest : rest = pre ++ PullItem.ok (some ("success".toList)) :: post :=
            (List.cons_eq_cons.mp heq).2
          exact ih.mpr ⟨pre, post, hrest,
            fun x hx => hpre x (List.mem_cons_of_mem a hx)⟩

/-- **C3 (amended).** The smart driver's `pullModel` succeeds iff the
transport works and no decode error occurs before a success-containing
status (a clean end of stream is success); the basic driver's `pullModel`
succeeds iff a status exactly equal to `"success"` is decoded before any
decode error, and in particular treats a clean end of stream as failure.
Any transport error fails both. -/
theorem pullModel_success_characterization :
    ∀ items : List PullItem,
      (pullModel (some items) = true ↔
        ¬ ∃ pre post, items = pre ++ PullItem.fail :: post ∧
            ∀ x ∈ pre, isSuccessItem x = false) ∧
      (Basic.pullModel (some items) = true ↔
        ∃ pre post,
          items = pre ++ PullItem.ok (some ("success".toList)) :: post ∧
            ∀ x ∈ pre, x ≠ PullItem.fail) ∧
      pullModel none = false ∧ Basic.pullModel none = false := by
  intro items
  refine ⟨?_, pullLoopBasic_eq_true_iff items, rfl, rfl⟩
  constructor
  · intro htrue hex
    have := (pullLoop_eq_false_iff items).mpr hex
    rw [show pullModel (some items) = pullLoop items from rfl, this] at htrue
    cases htrue
  · intro hni
    cases h : pullLoop items with
    | false => exact absurd ((pullLoop_eq_false_iff items).mp h) hni
    | true => exact h

/-- Witness for C3's amended theorem at a one-item stream carrying a
success status. -/
theorem pullModel_success_characterization_witness :
    pullModel (some [PullItem.ok (some ("success".toList))]) = true ↔
      ¬ ∃ pre post,
          [PullItem.ok (some ("success".toList))] = pre ++ PullItem.fail :: post ∧
            ∀ x ∈ pre, isSuccessItem x = false :=
  (pullModel_success_characterization [PullItem.ok (some ("success".toList))]).1

/-- Counterexample for C3 as stated: the basic driver returns failure on a
stream that ends cleanly without any error, and the smart driver returns
failure on a stream that does contain a success status (behind a decode
error) — both contradicting the claim's if-and-only-if. -/
theorem pullModel_claim_counterexample :
    (Basic.pullModel (some []) = false ∧ pullClaimC3 (some [])) ∧
    (pullModel (some [PullItem.fail, PullItem.ok (some ("success".toList))]) = false ∧
      pullClaimC3 (some [PullItem.fail, PullItem.ok (some ("success".toList))])) := by
  refine ⟨⟨rfl, Or.inr ?_⟩, rfl, Or.inl ?_⟩
  · intro x hx; cases hx
  · exact ⟨PullItem.ok (some ("success".toList)), by simp, by decide⟩

/-! ### C5 — per-model aggregation -/

theorem accumulateTotals_go :
    ∀ (results : List BenchmarkResult) (a b : ℚ) (c : Nat),
      results.foldl
        (fun acc r =>
          if r.success then (acc.1 + r.tokensPerSecond, acc.2.1 + r.totalTimeMs, acc.2.2 + 1)
          else acc)
        (a, b, c) =
        (a + ((results.filter (fun r => r.success)).map
            (fun r => r.tokensPerSecond)).sum,
         b + ((results.filter (fun r => r.success)).map
            (fun r => r.totalTimeMs)).sum,
         c + (results.filter (fun r => r.success)).length)
  | [], a, b, c => by simp
  | r :: rs, a, b, c => by
    by_cases h : r.success = true
    · simp only [List.foldl_cons, List.filter_cons, h, if_true, List.map_cons,
        List.sum_cons, List.length_cons]
      rw [accumulateTotals_go rs (a + r.tokensPerSecond) (b + r.totalTimeMs) (c + 1)]
      simp only [Prod.mk.injEq]
      refine ⟨by ring, by ring, by omega⟩
    · simp only [List.foldl_cons, List.filter_cons, h, if_false,
        Bool.false_eq_true]
      rw [accumulateTotals_go rs a b c]

theorem accumulateTotals_eq (results : List BenchmarkResult) :
    accumulateTotals results =
      (((results.filter (fun r => r.success)).map (fun r => r.tokensPerSecond)).sum,
       ((results.filter (fun r => r.success)).map (fun r => r.totalTimeMs)).sum,
       (results.filter (fun r => r.success)).length) := by
  have h := accumulateTotals_go results 0 0 0
  simpa [accumulateTotals] using h

/-- **C5 (amended).** The finalized summary's averages are the arithmetic
means over only the successful results (so `[success 10, success 20,
failure]` averages 15); both averages are 0 **if** there were zero
successful results (with successes present they equal the mean, which can
itself be 0 when every successful throughput is 0 — the claim's "iff"
holds only in this direction); `can_run` is true iff at least one result
succeeded; and the recorded results never outnumber the fixed battery. -/
theorem modelSummary_aggregation :
    (∀ (model : Str) (results : List BenchmarkResult),
      ((results.filter (fun r => r.success)).length ≠ 0 →
        (mkSummary model results).avgTokensPerSec =
          ((results.filter (fun r => r.success)).map
              (fun r => r.tokensPerSecond)).sum /
            ((results.filter (fun r => r.success)).length : ℚ) ∧
        (mkSummary model results).avgTotalTimeMs =
          ((results.filter (fun r => r.success)).map
              (fun r => r.totalTimeMs)).sum /
            ((results.filter (fun r => r.success)).length : ℚ)) ∧
      ((results.filter (fun r => r.success)).length = 0 →
        (mkSummary model results).avgTokensPerSec = 0 ∧
        (mkSummary model results).avgTotalTimeMs = 0) ∧
      ((mkSummary model results).canRun = true ↔ ∃ r ∈ results, r.success = true) ∧
      (mkSummary model results).testResults.length = results.length) ∧
    (∀ (config : Config) (model : Str) (env : ModelEnv),
      (processModel config model env).testResults.length ≤ testCases.length) := by
  constructor
  · intro model results
    have hacc := accumulateTotals_eq results
    refine ⟨?_, ?_, ?_, ?_⟩
    · intro h
      constructor <;> simp [mkSummary, hacc, Nat.pos_of_ne_zero h]
    · intro h
      constructor <;> simp [mkSummary, hacc, h]
    · simp only [mkSummary, hacc, decide_eq_true_eq]
      constructor
      · intro h
        obtain ⟨r, hr⟩ := List.exists_mem_of_length_pos h
        exact ⟨r, (List.mem_filter.mp hr).1, (List.mem_filter.mp hr).2⟩
      · rintro ⟨r, hr, hs⟩
        exact List.length_pos_of_mem (List.mem_filter.mpr ⟨hr, hs⟩)
    · simp [mkSummary]
  · intro config model env
    unfold processModel
    split_ifs <;> simp [mkSummary, runModelTests]

/-- Witness for C5: the spec's own example `[success 10 t/s, success 20
t/s, failure]` — the mean over successes, which evaluates to 15. -/
theorem modelSummary_aggregation_witness :
    (mkSummary ("z:1b".toList) resultsW).avgTokensPerSec =
        ((resultsW.filter (fun r => r.success)).map
            (fun r => r.tokensPerSecond)).sum /
          ((resultsW.filter (fun r => r.success)).length : ℚ) ∧
      (mkSummary ("z:1b".toList) resultsW).avgTokensPerSec = 15 :=
  ⟨((modelSummary_aggregation.1 ("z:1b".toList) resultsW).1 (by decide)).1,
   by
    simp only [mkSummary, accumulateTotals, resultsW, BenchmarkResult.zero,
      List.foldl_cons, List.foldl_nil]
    norm_num⟩

/-- Counterexample for C5 as stated: a model whose five generation calls
all succeed but report zero counts and durations ends with both averages 0
despite five successful results, so "both averages are 0 iff there were
zero successful results" fails right-to-left. -/
theorem modelSummary_aggregation_counterexample :
    (processModel configDup ("z:1b".toList) envAllZero).avgTokensPerSec = 0 ∧
    (processModel configDup ("z:1b".toList) envAllZero).avgTotalTimeMs = 0 ∧
    (processModel configDup ("z:1b".toList) envAllZero).canRun = true ∧
    ((processModel configDup ("z:1b".toList) envAllZero).testResults.filter
        (fun r => r.success)).length = 5 := by
  refine ⟨?_, ?_, ?_, ?_⟩ <;>
    simp [processModel, envAllZero, configDup, mkSummary, accumulateTotals,
      runModelTests, testCases, runBenchmark, respZero, BenchmarkResult.zero]

/-! ### C6 — per-call failure isolation -/

theorem runBenchmark_failure (model : Str) (test : TestCase) (oc : CallOutcome)
    (h : isFailureOutcome oc = true) :
    (runBenchmark model test oc).success = false ∧
      (runBenchmark model test oc).error ≠ [] := by
  cases oc with
  | ok t resp => cases h
  | marshalError msg =>
    refine ⟨rfl, ?_⟩
    intro hc
    rw [show (runBenchmark model test (CallOutcome.marshalError msg)).error =
      ("Failed to marshal request: ".toList) ++ msg from rfl] at hc
    rw [List.append_eq_nil] at hc
    exact absurd hc.1 (by decide)
  | transportError msg =>
    refine ⟨rfl, ?_⟩
    intro hc
    rw [show (runBenchmark model test (CallOutcome.transportError msg)).error =
      ("Failed to send request: ".toList) ++ msg from rfl] at hc
    rw [List.append_eq_nil] at hc
    exact absurd hc.1 (by decide)
  | readError msg =>
    refine ⟨rfl, ?_⟩
    intro hc
    rw [show (runBenchmark model test (CallOutcome.readError msg)).error =
      ("Failed to read response: ".toList) ++ msg from rfl] at hc
    rw [List.append_eq_nil] at hc
    exact absurd hc.1 (by decide)
  | decodeError msg =>
    refine ⟨rfl, ?_⟩
    intro hc
    rw [show (runBenchmark model test (CallOutcome.decodeError msg)).error =
      ("Failed to parse response: ".toList) ++ msg from rfl] at hc
    rw [List.append_eq_nil] at hc
    exact absurd hc.1 (by decide)

/-- **C6.** A request-construction, transport, body-read or decode failure
in a generation call yields exactly one failed result, carrying a nonempty
error string, at that test's position; every other test case still
produces its own result (the battery is mapped position by position), and
every model still yields its summary independently of the others. -/
theorem benchmark_failure_isolation :
    (∀ (model : Str) (calls : TestCase → CallOutcome),
      (runModelTests model calls).length = testCases.length ∧
      ∀ i : Fin testCases.length,
        (runModelTests model calls).get? (i : ℕ) =
          some (runBenchmark model (testCases.get i) (calls (testCases.get i))) ∧
        (isFailureOutcome (calls (testCases.get i)) = true →
          ∃ r : BenchmarkResult,
            (runModelTests model calls).get? (i : ℕ) = some r ∧
              r.success = false ∧ r.error ≠ [])) ∧
    (∀ (config : Config) (models : List Str) (env : Str → ModelEnv),
      (runAllModels config models env).length = models.length ∧
      ∀ i : Fin models.length,
        (runAllModels config models env).get? (i : ℕ) =
          some (processModel config (models.get i) (env (models.get i)))) := by
  constructor
  · intro model calls
    refine ⟨by simp [runModelTests], ?_⟩
    intro i
    have hget : (runModelTests model calls).get? (i : ℕ) =
        some (runBenchmark model (testCases.get i) (calls (testCases.get i))) := by
      rw [runModelTests, List.get?_map, List.get?_eq_get i.2]
      rfl
    refine ⟨hget, fun hfail => ?_⟩
    exact ⟨runBenchmark model (testCases.get i) (calls (testCases.get i)), hget,
      runBenchmark_failure model (testCases.get i) (calls (testCases.get i)) hfail⟩
  · intro config models env
    refine ⟨by simp [runAllModels], ?_⟩
    intro i
    rw [runAllModels, List.get?_map, List.get?_eq_get i.2]
    rfl

/-- Witness for C6: the coding test's decode failure produces the failed
result at position 1 while the battery keeps its five entries. -/
theorem benchmark_failure_isolation_witness :
    ∃ r : BenchmarkResult,
      (runModelTests ("m:7b".toList) envFailSecond.calls).get? 1 = some r ∧
        r.success = false ∧ r.error ≠ [] :=
  ((benchmark_failure_isolation.1 ("m:7b".toList) envFailSecond.calls).2
    ⟨1, by decide⟩).2 (by decide)

/-! ### C7 — size-tag extraction and the default estimate -/

theorem goSplit_head_tail (c : Char) :
    ∀ s : Str,
      goSplit c s =
        (s.takeWhile (fun a => a != c)) ::
          (if c ∈ s then goSplit c (afterFirst c s) else [])
  | [] => by simp [goSplit, afterFirst]
  | a :: t => by
    by_cases h : a = c
    · subst h
      simp [goSplit, afterFirst, List.takeWhile_cons]
    · have ih := goSplit_head_tail c t
      simp [goSplit, h, Ne.symm h, ih, List.takeWhile_cons, afterFirst,
        List.mem_cons]

theorem extractModelSize_of_not_mem {m : Str} (h : ':' ∉ m) :
    extractModelSize m = ("unknown".toList) := by
  rw [extractModelSize, goSplit_head_tail, if_neg h]

theorem extractModelSize_of_mem {m : Str} (h : ':' ∈ m) :
    extractModelSize m = (afterFirst ':' m).takeWhile (fun a => a != ':') := by
  rw [extractModelSize, goSplit_head_tail, if_pos h, goSplit_head_tail]

/-- **C7 (amended).** The size tag actually used by the estimator is the
field **between the first and second `':'`** of the identifier (not the
entire remainder after the first `':'`), or `"unknown"` when the
identifier has no `':'`; and whenever no token of the static table occurs
as a substring of that tag, `estimateModelRAM` returns the 5 GB default. -/
theorem extractModelSize_and_default (m : Str) :
    (':' ∉ m → extractModelSize m = ("unknown".toList)) ∧
    (':' ∈ m →
      extractModelSize m = (afterFirst ':' m).takeWhile (fun a => a != ':')) ∧
    ((∀ token ∈ sizeTokens, goContains (extractModelSize m) token = false) →
      estimateModelRAM m = 5) := by
  refine ⟨extractModelSize_of_not_mem, extractModelSize_of_mem, ?_⟩
  intro h
  simp [sizeTokens] at h
  simp [estimateModelRAM, ramForSize, h]

/-- Witness for C7's amended theorem: the tag `weird` matches no token, so
the estimate is the default 5 GB. -/
theorem extractModelSize_and_default_witness :
    estimateModelRAM ("x:weird".toList) = 5 :=
  (extractModelSize_and_default ("x:weird".toList)).2.2 (by decide)

/-- Counterexample for C7 as stated: for `x:7b:q4` the code's size tag is
`7b` (the field between the first two colons), not the claimed entire
remainder `7b:q4` after the first colon. -/
theorem extractModelSize_claim_counterexample :
    extractModelSize ("x:7b:q4".toList) = ("7b".toList) ∧
    extractModelSizeClaimed ("x:7b:q4".toList) = ("7b:q4".toList) ∧
    extractModelSize ("x:7b:q4".toList) ≠
      extractModelSizeClaimed ("x:7b:q4".toList) :=
  ⟨by decide, by decide, by decide⟩

/-! ### C9 — footprint ordering across size tags -/

theorem afterFirst_append {c : Char} :
    ∀ {x : Str} (t : Str), c ∉ x → afterFirst c (x ++ c :: t) = t
  | [], t, _ => by simp [afterFirst]
  | a :: x, t, h => by
    have ha : ¬ a = c := fun hc => h (by rw [hc]; exact List.mem_cons_self c x)
    rw [List.cons_append, afterFirst, if_neg ha]
    exact afterFirst_append t (fun hc => h (List.mem_cons_of_mem a hc))

theorem takeWhile_of_not_mem {c : Char} :
    ∀ {t : Str}, c ∉ t → t.takeWhile (fun a => a != c) = t
  | [], _ => rfl
  | a :: t, h => by
    have ha : (a != c) = true := by
      simp only [bne_iff_ne, ne_eq]
      exact fun hc => h (by rw [hc]; exact List.mem_cons_self c t)
    rw [List.takeWhile_cons, if_pos ha,
      takeWhile_of_not_mem (fun hc => h (List.mem_cons_of_mem a hc))]

theorem extractModelSize_concat {x tag : Str} (hx : ':' ∉ x) (htag : ':' ∉ tag) :
    extractModelSize (x ++ ':' :: tag) = tag := by
  have hmem : ':' ∈ x ++ ':' :: tag :=
    List.mem_append.mpr (Or.inr (List.mem_cons_self ':' tag))
  rw [extractModelSize_of_mem hmem, afterFirst_append tag hx,
    takeWhile_of_not_mem htag]

/-- **C9 (amended).** For every colon-free family prefix `x`, the size tag
seen by the estimator is exactly the trailing token, so the footprint
estimates are strictly ordered: 40 GB for `x:70b` > 5 GB for `x:7b` > 2 GB
for `x:1b` (the substring check order never conflates these three tags).
When `x` itself contains a `':'`, the estimator sees `x`'s own second
field instead and the ordering can collapse. -/
theorem estimateModelRAM_monotone (x : Str) (hx : ':' ∉ x) :
    estimateModelRAM (x ++ ':' :: ("70b".toList)) >
        estimateModelRAM (x ++ ':' :: ("7b".toList)) ∧
      estimateModelRAM (x ++ ':' :: ("7b".toList)) >
        estimateModelRAM (x ++ ':' :: ("1b".toList)) ∧
      estimateModelRAM (x ++ ':' :: ("70b".toList)) = 40 ∧
      estimateModelRAM (x ++ ':' :: ("7b".toList)) = 5 ∧
      estimateModelRAM (x ++ ':' :: ("1b".toList)) = 2 := by
  have h70 : estimateModelRAM (x ++ ':' :: ("70b".toList)) = 40 := by
    rw [estimateModelRAM, extractModelSize_concat hx (by decide)]
    decide
  have h7 : estimateModelRAM (x ++ ':' :: ("7b".toList)) = 5 := by
    rw [estimateModelRAM, extractModelSize_concat hx (by decide)]
    decide
  have h1 : estimateModelRAM (x ++ ':' :: ("1b".toList)) = 2 := by
    rw [estimateModelRAM, extractModelSize_concat hx (by decide)]
    decide
  rw [h70, h7, h1]
  refine ⟨by decide, by decide, rfl, rfl, rfl⟩

/-- Witness for C9's amended theorem at the colon-free prefix `llama`. -/
theorem estimateModelRAM_monotone_witness :
    estimateModelRAM (("llama".toList) ++ ':' :: ("70b".toList)) >
        estimateModelRAM (("llama".toList) ++ ':' :: ("7b".toList)) ∧
      estimateModelRAM (("llama".toList) ++ ':' :: ("7b".toList)) >
        estimateModelRAM (("llama".toList) ++ ':' :: ("1b".toList)) ∧
      estimateModelRAM (("llama".toList) ++ ':' :: ("70b".toList)) = 40 ∧
      estimateModelRAM (("llama".toList) ++ ':' :: ("7b".toList)) = 5 ∧
      estimateModelRAM (("llama".toList) ++ ':' :: ("1b".toList)) = 2 :=
  estimateModelRAM_monotone ("llama".toList) (by decide)

/-- Counterexample for C9 as stated: the family prefix `m:1b` (a string —
nothing forbids a colon in it) makes the estimator read size tag `1b` for
all three variants, so `estimate(x:70b) > estimate(x:7b)` fails. -/
theorem estimateModelRAM_monotone_counterexample :
    estimateModelRAM (("m:1b".toList) ++ (":70b".toList)) = 2 ∧
    estimateModelRAM (("m:1b".toList) ++ (":7b".toList)) = 2 ∧
    ¬ estimateModelRAM (("m:1b".toList) ++ (":70b".toList)) >
        estimateModelRAM (("m:1b".toList) ++ (":7b".toList)) :=
  ⟨by decide, by decide, by decide⟩

/-! ### C1 — catalog uniqueness and sortedness -/

theorem strLeb_total : ∀ a b : Str, strLeb a b = true ∨ strLeb b a = true
  | [], _ => Or.inl rfl
  | _ :: _, [] => Or.inr rfl
  | a :: s, b :: t => by
    rcases lt_trichotomy a b with h | h | h
    · left
      simp only [strLeb]
      rw [if_pos h]
    · subst h
      rcases strLeb_total s t with hs | hs
      · left
        simp only [strLeb]
        rw [if_neg (lt_irrefl a), if_neg (lt_irrefl a)]
        exact hs
      · right
        simp only [strLeb]
        rw [if_neg (lt_irrefl a), if_neg (lt_irrefl a)]
        exact hs
    · right
      simp only [strLeb]
      rw [if_pos h]

theorem strLeb_trans :
    ∀ a b c : Str, strLeb a b = true → strLeb b c = true → strLeb a c = true
  | [], _, _, _, _ => rfl
  | _ :: _, [], _, hab, _ => by cases hab
  | _ :: _, _ :: _, [], _, hbc => by cases hbc
  | a :: s, b :: t, c :: u, hab, hbc => by
    simp only [strLeb] at hab hbc ⊢
    by_cases h1 : a < b
    · by_cases h2 : b < c
      · rw [if_pos (lt_trans h1 h2)]
      · rw [if_neg h2] at hbc
        by_cases h3 : c < b
        · rw [if_pos h3] at hbc
          cases hbc
        · have hbc' : b = c := le_antisymm (not_lt.mp h3) (not_lt.mp h2)
          subst hbc'
          rw [if_pos h1]
    · rw [if_neg h1] at hab
      by_cases h1b : b < a
      · rw [if_pos h1b] at hab
        cases hab
      · rw [if_neg h1b] at hab
        have hab' : a = b := le_antisymm (not_lt.mp h1b) (not_lt.mp h1)
        subst hab'
        by_cases h2 : a < c
        · rw [if_pos h2]
        · rw [if_neg h2] at hbc ⊢
          by_cases h3 : c < a
          · rw [if_pos h3] at hbc
            cases hbc
          · rw [if_neg h3] at hbc ⊢
            exact strLeb_trans s t u hab hbc

instance : IsTotal Str (fun a b => strLeb a b = true) := ⟨strLeb_total⟩

instance : IsTrans Str (fun a b => strLeb a b = true) := ⟨strLeb_trans⟩

theorem addVariants_subset :
    ∀ (vs ms : List Str) (m : Str), m ∈ addVariants ms vs → m ∈ ms ∨ m ∈ vs
  | [], _, _, h => Or.inl h
  | v :: vs, ms, m, h => by
    simp only [addVariants] at h
    by_cases hv : v ∈ ms
    · rw [if_pos hv] at h
      rcases addVariants_subset vs ms m h with h | h
      · exact Or.inl h
      · exact Or.inr (List.mem_cons_of_mem v h)
    · rw [if_neg hv] at h
      rcases addVariants_subset vs (ms ++ [v]) m h with h | h
      · rcases List.mem_append.mp h with h | h
        · exact Or.inl h
        · rw [List.mem_singleton] at h
          rw [h]
          exact Or.inr (List.mem_cons_self v vs)
      · exact Or.inr (List.mem_cons_of_mem v h)

theorem addVariants_nodup :
    ∀ (vs ms : List Str), ms.Nodup → (addVariants ms vs).Nodup
  | [], _, h => h
  | v :: vs, ms, h => by
    simp only [addVariants]
    by_cases hv : v ∈ ms
    · rw [if_pos hv]
      exact addVariants_nodup vs ms h
    · rw [if_neg hv]
      refine addVariants_nodup vs (ms ++ [v]) ?_
      rw [List.nodup_append]
      exact ⟨h, List.nodup_singleton v,
        fun a ha hav => hv ((List.mem_singleton.mp hav) ▸ ha)⟩

theorem getCommonVariants_startsWithFamily (family v : Str)
    (h : v ∈ getCommonVariants family) : family.isPrefixOf v = true := by
  unfold getCommonVariants at h
  split_ifs at h with h1 h2 h3 h4 h5 h6 h7 h8
  · subst h1; fin_cases h <;> decide
  · subst h2; fin_cases h <;> decide
  · subst h3; fin_cases h <;> decide
  · subst h4; fin_cases h <;> decide
  · subst h5; fin_cases h <;> decide
  · subst h6; fin_cases h <;> decide
  · subst h7; fin_cases h <;> decide
  · subst h8; fin_cases h <;> decide
  · rw [List.mem_singleton] at h
    rw [h]
    exact List.isPrefixOf_iff_prefix.mpr (List.prefix_append _ _)

theorem matchingFamilies_cons (f : LLMFamily) (fs : List LLMFamily) (m : Str) :
    matchingFamilies (f :: fs) m =
      (if f.enabled && f.name.isPrefixOf m then 1 else 0) +
        matchingFamilies fs m := by
  rw [matchingFamilies, matchingFamilies, List.filter_cons]
  by_cases h : (f.enabled && f.name.isPrefixOf m) = true
  · rw [if_pos h, if_pos h, List.length_cons]
    omega
  · rw [if_neg h, if_neg h]
    omega

theorem buildModels_nodup (installed : List Str) (hins : installed.Nodup) :
    ∀ (fs : List LLMFamily) (ms : List Str),
      ms.Nodup →
      (∀ m ∈ installed, m ∈ ms → matchingFamilies fs m = 0) →
      (∀ m ∈ installed, matchingFamilies fs m ≤ 1) →
      (buildModels installed fs ms).Nodup
  | [], ms, hms, _, _ => hms
  | f :: fs, ms, hms, hzero, hone => by
    have hone' : ∀ m ∈ installed, matchingFamilies fs m ≤ 1 := by
      intro m hm
      exact le_trans (Nat.le_add_left _ _)
        (le_of_eq_of_le (matchingFamilies_cons f fs m).symm (hone m hm))
    simp only [buildModels]
    by_cases hen : f.enabled = true
    · rw [if_pos hen]
      have hnotin : ∀ m ∈ installed, f.name.isPrefixOf m = true → m ∉ ms := by
        intro m hm hpre hmem
        have h0 := hzero m hm hmem
        rw [matchingFamilies_cons, if_pos (by rw [Bool.and_eq_true]; exact ⟨hen, hpre⟩)] at h0
        omega
      have hrest : ∀ m ∈ installed, f.name.isPrefixOf m = true →
          matchingFamilies fs m = 0 := by
        intro m hm hpre
        have h1 := hone m hm
        rw [matchingFamilies_cons, if_pos (by rw [Bool.and_eq_true]; exact ⟨hen, hpre⟩)] at h1
        omega
      have hms1 : (ms ++ installed.filter (fun m => f.name.isPrefixOf m)).Nodup := by
        rw [List.nodup_append]
        refine ⟨hms, hins.filter _, ?_⟩
        intro a ha haf
        have hmem := List.mem_filter.mp haf
        exact hnotin a hmem.1 hmem.2 ha
      have hmem1 : ∀ m ∈ installed,
          m ∈ ms ++ installed.filter (fun m => f.name.isPrefixOf m) →
          matchingFamilies fs m = 0 := by
        intro m hm hmem
        rcases List.mem_append.mp hmem with hmem | hmem
        · have h0 := hzero m hm hmem
          rw [matchingFamilies_cons] at h0
          omega
        · exact hrest m hm (List.mem_filter.mp hmem).2
      by_cases hvar : f.testAllVariants = true
      · rw [if_pos hvar]
        refine buildModels_nodup installed hins fs _
          (addVariants_nodup _ _ hms1) ?_ hone'
        intro m hm hmem
        rcases addVariants_subset _ _ m hmem with hmem | hmem
        · exact hmem1 m hm hmem
        · exact hrest m hm (getCommonVariants_startsWithFamily f.name m hmem)
      · rw [if_neg hvar]
        exact buildModels_nodup installed hins fs _ hms1 hmem1 hone'
    · rw [if_neg hen]
      refine buildModels_nodup installed hins fs ms hms ?_ hone'
      intro m hm hmem
      have h0 := hzero m hm hmem
      rw [matchingFamilies_cons,
        if_neg (fun hc => hen (by rw [Bool.and_eq_true] at hc; exact hc.1))] at h0
      omega

/-- **C1 (amended).** The catalog is always sorted ascending in byte-wise
string order, and it contains each identifier exactly once **provided**
every installed model name is prefix-matched by at most one enabled family
entry.  With two enabled families whose names are both prefixes of one
installed name, that name is appended once per family and the catalog
duplicates it (see the counterexample). -/
theorem getOllamaLibraryModels_sorted_unique (config : Config) (tags : List Str) :
    List.Sorted (fun a b : Str => strLeb a b = true)
        (getOllamaLibraryModels config tags) ∧
      ((∀ m ∈ tags, matchingFamilies config.llmFamilies m ≤ 1) →
        (getOllamaLibraryModels config tags).Nodup) := by
  unfold getOllamaLibraryModels
  constructor
  · exact List.sorted_insertionSort _ _
  · intro h
    have hperm := List.perm_insertionSort (fun a b : Str => strLeb a b = true)
      (buildModels tags.dedup config.llmFamilies [])
    rw [hperm.nodup_iff]
    refine buildModels_nodup tags.dedup (List.nodup_dedup tags)
      config.llmFamilies [] List.nodup_nil ?_ ?_
    · intro m _ hmem
      cases hmem
    · intro m hm
      exact h m (List.mem_dedup.mp hm)

/-- Witness for C1's amended theorem: a single enabled family
(`llama3.2`, reference variants on) with one installed overlapping name
gives a sorted, duplicate-free catalog. -/
theorem getOllamaLibraryModels_sorted_unique_witness :
    List.Sorted (fun a b : Str => strLeb a b = true)
        (getOllamaLibraryModels configFam [("llama3.2:1b".toList)]) ∧
      (getOllamaLibraryModels configFam [("llama3.2:1b".toList)]).Nodup :=
  ⟨(getOllamaLibraryModels_sorted_unique configFam [("llama3.2:1b".toList)]).1,
   (getOllamaLibraryModels_sorted_unique configFam [("llama3.2:1b".toList)]).2
     (by decide)⟩

/-- Counterexample for C1 as stated: with the two enabled families `llama`
and `llama3.2` and the single installed model `llama3.2:1b`, both family
scans append the same name, so the catalog lists it twice. -/
theorem getOllamaLibraryModels_claim_counterexample :
    getOllamaLibraryModels configDup [("llama3.2:1b".toList)] =
        [("llama3.2:1b".toList), ("llama3.2:1b".toList)] ∧
      ¬ (getOllamaLibraryModels configDup [("llama3.2:1b".toList)]).Nodup :=
  ⟨by decide, by decide⟩

/-! ### C2 — overall ranking order and (non-)stability -/

instance : IsTotal ModelSummary
    (fun a b => a.avgTokensPerSec ≥ b.avgTokensPerSec) :=
  ⟨fun a b => le_total b.avgTokensPerSec a.avgTokensPerSec⟩

instance : IsTrans ModelSummary
    (fun a b => a.avgTokensPerSec ≥ b.avgTokensPerSec) :=
  ⟨fun _ _ _ hab hbc => le_trans hbc hab⟩

/-- **C2 (amended).** The overall ranking is a permutation of exactly the
`can_run` summaries, ordered by nonincreasing average tokens/sec, and such
an output always exists; the relative order of models with equal averages
is **not** specified — the code sorts with Go's `sort.Slice`, which is
documented as unstable, so catalog order among ties is not guaranteed
(see the counterexample). -/
theorem ranking_spec (summaries : List ModelSummary) :
    (∃ out, rankingOk summaries out) ∧
      ∀ out, rankingOk summaries out →
        (List.Sorted (fun a b : ModelSummary =>
            a.avgTokensPerSec ≥ b.avgTokensPerSec) out ∧
          ∀ s, s ∈ out ↔ s ∈ summaries ∧ s.canRun = true) := by
  constructor
  · refine ⟨List.insertionSort
      (fun a b : ModelSummary => a.avgTokensPerSec ≥ b.avgTokensPerSec)
      (successfulOf summaries), ?_, ?_⟩
    · exact List.perm_insertionSort _ _
    · exact List.sorted_insertionSort _ _
  · intro out hout
    refine ⟨hout.2, ?_⟩
    intro s
    rw [hout.1.mem_iff]
    simp [successfulOf, List.mem_filter]

/-- Witness for C2's amended theorem: the two equal-average runnable
summaries in catalog order form an admissible ranking. -/
theorem ranking_spec_witness :
    List.Sorted (fun a b : ModelSummary =>
        a.avgTokensPerSec ≥ b.avgTokensPerSec) [summA, summB] ∧
      ∀ s, s ∈ [summA, summB] ↔ s ∈ [summA, summB] ∧ s.canRun = true :=
  (ranking_spec [summA, summB]).2 [summA, summB]
    ⟨by rw [show successfulOf [summA, summB] = [summA, summB] from rfl],
     by simp [List.sorted_cons, summA, summB]⟩

/-- Counterexample for C2 as stated: `sort.Slice`'s contract (sorted
permutation, stability not guaranteed) admits the reversed output
`[summB, summA]` for the equal-average input `[summA, summB]`, and that
output does not preserve the catalog order of the tie. -/
theorem ranking_stability_counterexample :
    rankingOk [summA, summB] [summB, summA] ∧
      ¬ preservesTieOrder (successfulOf [summA, summB]) [summB, summA] := by
  constructor
  · constructor
    · rw [show successfulOf [summA, summB] = [summA, summB] from rfl]
      exact List.Perm.swap summA summB []
    · simp [List.sorted_cons, summA, summB]
  · intro hp
    have h01 := hp ⟨0, by decide⟩ ⟨1, by decide⟩ (by decide) rfl
    obtain ⟨k, l, hkl, hk, hl⟩ := h01
    rcases k with ⟨kv, hkv⟩
    rcases l with ⟨lv, hlv⟩
    have hkv' : kv < 2 := hkv
    have hlv' : lv < 2 := hlv
    have hkl' : kv < lv := hkl
    have hkv2 : kv = 0 ∨ kv = 1 := by omega
    rcases hkv2 with rfl | rfl
    · have h1 : ([summB, summA].get ⟨0, hkv⟩) = summB := rfl
      rw [h1] at hk
      have hss : summB = summA := hk.trans (by rfl)
      exact absurd (congrArg ModelSummary.modelName hss) (by decide)
    · omega
